import Mathlib

/-
Verification of kiwiplates-watcher (src/watch_plates.py) against its
specification.  The Python module is embedded shallowly: network and clock
effects become oracle parameters, the JSON state file becomes an explicit
artifact datatype, and the per-run side effects (HTTP calls, sleeps, the
single state write, webhook posts, printed lines) become an explicit trace
of effect values produced by a pure function.
-/

namespace KiwiPlates

/-- Record stored per combination: the dict literal written at line 105 of
watch_plates.py, with the tri-state availability as Option Bool (Python
True / False / None). -/
structure StatusRecord where
  available : Option Bool
  reason : String
  last_seen : String
deriving DecidableEq

/-- The in-memory state dict: a mapping from combination to StatusRecord.
Python dicts keep insertion order; an association list with unique keys
models that faithfully. -/
abbrev WatchState := List (String × StatusRecord)

/-- Python dict lookup, state.get(plate): first entry with a matching key
(keys are unique in a dict, so first = only). -/
def lookupState : WatchState → String → Option StatusRecord
  | [], _ => none
  | (k, v) :: rest, p => if k = p then some v else lookupState rest p

/-- Python dict assignment, state[plate] = rec: replace in place when the
key exists, append otherwise (insertion order is preserved). -/
def setState : WatchState → String → StatusRecord → WatchState
  | [], p, r => [(p, r)]
  | (k, v) :: rest, p, r =>
    if k = p then (p, r) :: rest else (k, v) :: setState rest p r

/-- The keys of the state mapping, in order. -/
def keysOf (st : WatchState) : List String := st.map Prod.fst

/-- A well-formed dict has no duplicate keys. -/
abbrev NodupKeys (st : WatchState) : Prop := (keysOf st).Nodup

/-- Number of entries carrying a given key. -/
def countKey (st : WatchState) (p : String) : Nat :=
  (st.filter (fun e => decide (e.1 = p))).length

/-- Python str() of an Optional[bool], as interpolated by an f-string. -/
def pyShowOB : Option Bool → String
  | none => "None"
  | some true => "True"
  | some false => "False"

/-- Python str() of an Optional[str], as interpolated by an f-string. -/
def pyShowOS : Option String → String
  | none => "None"
  | some s => s

/-- The ASCII whitespace stripped by Python str.strip() (the unicode
space classes are irrelevant to the ASCII plate files in scope). -/
def isPySpace (c : Char) : Bool :=
  c == ' ' || c == '\t' || c == '\n' || c == '\r' || c == '\x0b' || c == '\x0c'

/-- line.strip(): drop leading and trailing whitespace. -/
def pyStrip (s : String) : String :=
  ⟨((s.data.dropWhile isPySpace).reverse.dropWhile isPySpace).reverse⟩

/-- str.upper() (ASCII case mapping, as for the inputs in scope). -/
def pyUpper (s : String) : String := ⟨s.data.map Char.toUpper⟩

/-- str.replace applied to a single space and an empty replacement:
deletes every space character U+0020 (and nothing else). -/
def removeSpaces (s : String) : String :=
  ⟨s.data.filter (fun c => !(c == ' '))⟩

/-- Line 29: p = line.strip().upper().replace applied to a space. -/
def normalizePlate (line : String) : String :=
  removeSpaces (pyUpper (pyStrip line))

/-- Python string ordering: lexicographic on the code points.  Stated on
the character lists underlying the strings. -/
def plateLE (a b : String) : Prop := a.data ≤ b.data

instance : DecidableRel plateLE := fun a b =>
  inferInstanceAs (Decidable (a.data ≤ b.data))

instance : IsTotal String plateLE := ⟨fun a b => le_total a.data b.data⟩

instance : IsTrans String plateLE := ⟨fun _ _ _ => le_trans⟩

theorem data_ne_of_ne {a b : String} (h : a ≠ b) : a.data ≠ b.data := by
  intro hd
  apply h
  cases a
  cases b
  exact congrArg String.mk hd

instance : IsAntisymm String plateLE :=
  ⟨fun a b h1 h2 => by
    cases a
    cases b
    exact congrArg String.mk (le_antisymm h1 h2)⟩

/-- Lines 25-33, load_plates: normalize each line, keep the non-empty
results, deduplicate, sort ascending. -/
def load_plates (lines : List String) : List String :=
  List.insertionSort plateLE
    (((lines.map normalizePlate).filter (fun p => decide (p ≠ ""))).dedup)

/-- JSON values as far as this program inspects them: objects are kept
structurally, strings and booleans and null are kept (they are compared
and extracted), anything else only contributes its Python truthiness. -/
inductive JVal where
  | null
  | boolV (b : Bool)
  | strV (s : String)
  | obj (fields : List (String × JVal))
  | other (truthyFlag : Bool)

/-- Whether a JSON-derived Python value is a dict; only dicts have the
.get attribute used at lines 71-72 and 101-103. -/
def isDict : JVal → Bool
  | JVal.obj _ => true
  | _ => false

/-- What reading the state file yields, one constructor per outcome of
open plus json.load: bytes that are not valid UTF-8 (json.load raises
UnicodeDecodeError, which line 37-43 does not catch), UTF-8 text that is
not valid JSON (JSONDecodeError, caught), a JSON object of status records
(the only shape save_state writes), or valid JSON of any non-object
shape. -/
inductive RawContent where
  | undecodableBytes
  | malformed (raw : String)
  | wellFormed (mapping : WatchState)
  | nonMapping (v : JVal) (notDict : isDict v = false)

/-- Result of opening the state file: missing (FileNotFoundError) or its
content. -/
inductive FileRead where
  | notFound
  | content (c : RawContent)

/-- The Python value bound to state at line 87: a dict of records, or the
non-dict value json.load produced. -/
inductive LoadedState where
  | mapping (st : WatchState)
  | nonMapping (v : JVal) (notDict : isDict v = false)

/-- Lines 36-43, load_state: FileNotFoundError and JSONDecodeError are
caught and degrade to the empty mapping; a file whose bytes are not valid
UTF-8 raises an uncaught UnicodeDecodeError out of json.load; a file
decoding to valid JSON that is not an object is returned unchanged. -/
def load_state : FileRead → Except String LoadedState
  | FileRead.notFound => Except.ok (LoadedState.mapping [])
  | FileRead.content RawContent.undecodableBytes =>
    Except.error ("UnicodeDecodeError")
  | FileRead.content (RawContent.malformed _) => Except.ok (LoadedState.mapping [])
  | FileRead.content (RawContent.wellFormed m) => Except.ok (LoadedState.mapping m)
  | FileRead.content (RawContent.nonMapping v h) =>
    Except.ok (LoadedState.nonMapping v h)

/-- Ordering of state entries by key, used to model sort_keys=True. -/
def keyLE (a b : String × StatusRecord) : Prop := a.1.data ≤ b.1.data

/-- Strict version of keyLE, for uniqueness of the sorted artifact. -/
def keyLT (a b : String × StatusRecord) : Prop := a.1.data < b.1.data

instance : DecidableRel keyLE := fun a b =>
  inferInstanceAs (Decidable (a.1.data ≤ b.1.data))

instance : IsTotal (String × StatusRecord) keyLE :=
  ⟨fun a b => le_total a.1.data b.1.data⟩

instance : IsTrans (String × StatusRecord) keyLE :=
  ⟨fun _ _ _ h1 h2 => le_trans h1 h2⟩

instance : IsAntisymm (String × StatusRecord) keyLT :=
  ⟨fun _ _ h1 h2 => absurd h2 (lt_asymm h1)⟩

/-- Lines 46-48, save_state: json.dump with sort_keys=True serializes the
mapping with its keys in ascending order; the file then decodes back to
exactly that sorted mapping. -/
def save_state (state : WatchState) : FileRead :=
  FileRead.content (RawContent.wellFormed (List.insertionSort keyLE state))

/-- Python truthiness of a JSON-derived value. -/
def truthy : JVal → Bool
  | JVal.null => false
  | JVal.boolV b => b
  | JVal.strV s => !s.isEmpty
  | JVal.obj fields => !fields.isEmpty
  | JVal.other t => t

/-- Python x or d for JSON-derived values. -/
def pyOr (v d : JVal) : JVal := if truthy v then v else d

/-- Lookup in a decoded JSON object (json.load keeps one value per key). -/
def jlookup : List (String × JVal) → String → Option JVal
  | [], _ => none
  | (k, v) :: rest, key => if k = key then some v else jlookup rest key

/-- Python value.get(key): defined on dicts only; on any other value the
attribute access raises an (uncaught) AttributeError. -/
def jsonGet : JVal → String → Except String (Option JVal)
  | JVal.obj fields, key => Except.ok (jlookup fields key)
  | _, _ => Except.error ("AttributeError")

/-- data.get of the Reason key followed by: or an empty string.  The
remote contract (spec section 6) makes Reason a string when present;
falsy or absent values collapse to the empty string. -/
def reasonString : Option JVal → String
  | some (JVal.strV s) => s
  | _ => ""

/-- Lines 71-77: extract Data, Available and Reason from a decoded
payload.  The two: or-empty-dict guards only cover falsy values, so a
truthy non-object payload or Data member raises AttributeError. -/
def parseAttempt (payload : JVal) : Except String (Option Bool × String) :=
  match jsonGet (pyOr payload (JVal.obj [])) ("Data") with
  | Except.error e => Except.error e
  | Except.ok dataRaw =>
    let data := pyOr (match dataRaw with | some v => v | none => JVal.null) (JVal.obj [])
    match jsonGet data ("Available") with
    | Except.error e => Except.error e
    | Except.ok availableJ =>
      match jsonGet data ("Reason") with
      | Except.error e => Except.error e
      | Except.ok reasonJ =>
        match availableJ with
        | some (JVal.boolV b) => Except.ok (some b, reasonString reasonJ)
        | _ => Except.ok (none, "PARSE_ERROR")

/-- One iteration of the attempt loop as seen from outside: either the
try-block raised a transport fault (RequestException from the HTTP call or
raise_for_status, or ValueError from undecodable JSON), carrying str(e),
or r.json() produced a payload. -/
inductive Attempt where
  | fault (err : String)
  | response (payload : JVal)

/-- Line 17. -/
def RETRIES : Nat := 3

/-- The attempt loop of lines 64-82: done attempts made so far, a budget
of remaining attempts, the last transport error.  The Nat in the result is
ghost instrumentation counting the attempts actually made. -/
def fetchAttempts (att : Nat → Attempt) :
    Nat → Nat → Option String → Except String ((Option Bool × String) × Nat)
  | done, 0, last_err =>
    Except.ok ((none, ("ERROR: ") ++ pyShowOS last_err), done)
  | done, n + 1, _ =>
    match att done with
    | Attempt.fault e => fetchAttempts att (done + 1) n (some e)
    | Attempt.response payload =>
      match parseAttempt payload with
      | Except.error e => Except.error e
      | Except.ok res => Except.ok (res, done + 1)

/-- Lines 61-82, fetch_plate_status, with the successive attempt outcomes
supplied by an oracle.  An error value models an exception the function
does not catch. -/
def fetch_plate_status (att : Nat → Attempt) :
    Except String ((Option Bool × String) × Nat) :=
  fetchAttempts att 0 RETRIES none

/-- Observable side effects of one run, in program order: the network
call(s) for one plate, the politeness sleep of line 115 (0.25 s), the
state write of line 117 (saveState when the state variable holds a dict
of records, saveRaw when it still holds a non-dict loaded value that is
serialized back unchanged), a webhook post, a printed line. -/
inductive Effect where
  | fetch (plate : String)
  | sleep
  | saveState (state : WatchState)
  | saveRaw (v : JVal)
  | discordPost (url message : String)
  | printLine (line : String)

/-- What the loop of lines 98-115 accumulates: the mutated state dict and
the changes and newly_available lists, plus the effect trace it performs. -/
structure LoopResult where
  state : WatchState
  changes : List String
  newly_available : List String
  effects : List Effect

/-- Lines 101-102: state.get(plate, empty dict).get of the available key;
a missing record reads as None, like a stored null. -/
def prevAvail (st : WatchState) (p : String) : Option Bool :=
  match lookupState st p with
  | some r => r.available
  | none => none

/-- Line 103: previous reason, None when no record exists. -/
def prevReason (st : WatchState) (p : String) : Option String :=
  match lookupState st p with
  | some r => some r.reason
  | none => none

/-- Line 108: the f-string recorded in the changes list. -/
def changeLine (plate : String) (prev_avail : Option Bool)
    (prev_reason : Option String) (available : Option Bool) (reason : String) :
    String :=
  plate ++ (": ") ++ pyShowOB prev_avail ++ ("/") ++ pyShowOS prev_reason
    ++ (" → ") ++ pyShowOB available ++ ("/") ++ reason

/-- Lines 98-115, the fetch loop of main: sequentially fetch every plate,
read the previous record, overwrite the record unconditionally, record a
change entry and a newly-available entry as appropriate.  An uncaught
exception from fetch_plate_status aborts the whole loop. -/
def runLoop (att : String → Nat → Attempt) (run_time : String) :
    WatchState → List String → Except String LoopResult
  | st, [] => Except.ok ⟨st, [], [], []⟩
  | st, plate :: rest =>
    match fetch_plate_status (att plate) with
    | Except.error e => Except.error e
    | Except.ok fr =>
      let available := fr.1.1
      let reason := fr.1.2
      let prev_avail := prevAvail st plate
      let prev_reason := prevReason st plate
      match runLoop att run_time (setState st plate ⟨available, reason, run_time⟩) rest with
      | Except.error e => Except.error e
      | Except.ok r =>
        Except.ok ⟨r.state,
          (if available ≠ prev_avail ∨ some reason ≠ prev_reason
            then [changeLine plate prev_avail prev_reason available reason] else [])
            ++ r.changes,
          (if available = some true ∧ prev_avail ≠ some true
            then [plate ++ (" ✅")] else [])
            ++ r.newly_available,
          Effect.fetch plate :: Effect.sleep :: r.effects⟩

/-- The effect trace the fetch loop performs, one fetch and one sleep per
plate, in working-set order. -/
def loopEffects : List String → List Effect
  | [] => []
  | p :: rest => Effect.fetch p :: Effect.sleep :: loopEffects rest

/-- The states written by saveState effects of a trace, in order. -/
def savedStates (tr : List Effect) : List WatchState :=
  tr.filterMap (fun e => match e with
    | Effect.saveState s => some s
    | _ => none)

/-- True exactly on webhook-post effects. -/
def isPostEffect : Effect → Bool
  | Effect.discordPost _ _ => true
  | _ => false

/-- True exactly on state-write effects. -/
def isSaveEffect : Effect → Bool
  | Effect.saveState _ => true
  | Effect.saveRaw _ => true
  | _ => false

/-- Lines 51-58, send_discord: empty webhook URL logs and skips; otherwise
the post is attempted and a delivery failure (the oracle post_result
carrying str(e)) is caught and logged. -/
def send_discord (webhook_url : String) (post_result : Option String)
    (message : String) : List Effect :=
  if webhook_url = "" then
    [Effect.printLine ("DISCORD_WEBHOOK_URL not set; skipping Discord alert.")]
  else
    Effect.discordPost webhook_url message ::
      (match post_result with
       | none => []
       | some e => [Effect.printLine (("Discord post failed: ") ++ e)])

/-- Line 120: the aggregated alert message. -/
def availMsg (newly : List String) : String :=
  ("🚨 **KiwiPlates now AVAILABLE:** ") ++ String.intercalate (", ") newly

/-- Lines 119-122: when newly_available is non-empty, send the aggregate
alert and print it. -/
def notifyTrace (webhook_url : String) (post_result : Option String)
    (newly : List String) : List Effect :=
  if newly.isEmpty then []
  else send_discord webhook_url post_result (availMsg newly)
    ++ [Effect.printLine (availMsg newly)]

/-- Line 128: the final summary line. -/
def summaryLine (run_time : String) (checked newCount : Nat) : String :=
  ("Run complete at ") ++ run_time ++ (". Checked ") ++ toString checked
    ++ (" plates. New available: ") ++ toString newCount

/-- Lines 85-128, main.  platesFile is the readable content of plates.txt
(none means opening it raised an uncaught OSError, the fatal case);
stateFile is what reading watch_state.json yields; webhook_url is
DISCORD_WEBHOOK_URL after strip (empty means unset); post_result is the
delivery outcome oracle; run_time is the now_str() value taken once at
line 97.  The result is the ordered effect trace of a completed run, or
the uncaught exception that aborted it.  When load_state raises, main
propagates; when it returns a non-dict value, the first loop iteration
fetches (line 99) and then crashes at line 101 where state.get does not
exist on the non-dict, while an empty working set skips the loop and
line 117 serializes the non-dict value back unchanged. -/
def mainRun (att : String → Nat → Attempt) (platesFile : Option (List String))
    (stateFile : FileRead) (webhook_url : String) (post_result : Option String)
    (run_time : String) : Except String (List Effect) :=
  match platesFile with
  | none => Except.error ("OSError")
  | some lines =>
    match load_state stateFile with
    | Except.error e => Except.error e
    | Except.ok (LoadedState.nonMapping v _) =>
      match load_plates lines with
      | [] =>
        Except.ok (Effect.saveRaw v ::
          (notifyTrace webhook_url post_result []
            ++ [Effect.printLine (summaryLine run_time 0 0)]))
      | plate :: _ =>
        match fetch_plate_status (att plate) with
        | Except.error e => Except.error e
        | Except.ok _ => Except.error ("AttributeError")
    | Except.ok (LoadedState.mapping st) =>
      match runLoop att run_time st (load_plates lines) with
      | Except.error e => Except.error e
      | Except.ok r =>
        Except.ok (r.effects ++ Effect.saveState r.state ::
          (notifyTrace webhook_url post_result r.newly_available
            ++ [Effect.printLine (summaryLine run_time (load_plates lines).length
                  r.newly_available.length)]))

instance {ε α : Type} [DecidableEq ε] [DecidableEq α] : DecidableEq (Except ε α) :=
  fun a b =>
    match a, b with
    | Except.ok x, Except.ok y =>
      if h : x = y then isTrue (by rw [h]) else isFalse (fun hh => h (Except.ok.inj hh))
    | Except.error x, Except.error y =>
      if h : x = y then isTrue (by rw [h]) else isFalse (fun hh => h (Except.error.inj hh))
    | Except.ok _, Except.error _ => isFalse (fun hh => Except.noConfusion hh)
    | Except.error _, Except.ok _ => isFalse (fun hh => Except.noConfusion hh)

theorem keysOf_nil : keysOf [] = [] := rfl

theorem keysOf_cons (k : String) (v : StatusRecord) (rest : WatchState) :
    keysOf ((k, v) :: rest) = k :: keysOf rest := rfl

theorem lookupState_setState_self (st : WatchState) (p : String) (r : StatusRecord) :
    lookupState (setState st p r) p = some r := by
  induction st with
  | nil => simp [setState, lookupState]
  | cons e rest ih =>
    obtain ⟨k, v⟩ := e
    by_cases h : k = p
    · simp [setState, h, lookupState]
    · simp [setState, h, lookupState, ih]

theorem lookupState_setState_ne (st : WatchState) (p q : String) (r : StatusRecord)
    (h : q ≠ p) : lookupState (setState st p r) q = lookupState st q := by
  induction st with
  | nil => simp [setState, lookupState, Ne.symm h]
  | cons e rest ih =>
    obtain ⟨k, v⟩ := e
    by_cases hk : k = p
    · subst hk
      simp [setState, lookupState, Ne.symm h]
    · rw [setState, if_neg hk]
      by_cases hq : k = q
      · simp [lookupState, hq]
      · simp [lookupState, hq, ih]

theorem mem_keysOf_setState (st : WatchState) (p q : String) (r : StatusRecord) :
    q ∈ keysOf (setState st p r) ↔ q ∈ keysOf st ∨ q = p := by
  induction st with
  | nil => simp [setState, keysOf]
  | cons e rest ih =>
    obtain ⟨k, v⟩ := e
    by_cases hk : k = p
    · subst hk
      simp [setState, keysOf_cons]
      tauto
    · simp [setState, hk, keysOf_cons, ih]
      tauto

theorem nodupKeys_setState (st : WatchState) (p : String) (r : StatusRecord)
    (h : NodupKeys st) : NodupKeys (setState st p r) := by
  induction st with
  | nil => simp [setState, NodupKeys, keysOf]
  | cons e rest ih =>
    obtain ⟨k, v⟩ := e
    rw [NodupKeys, keysOf_cons, List.nodup_cons] at h
    obtain ⟨hk1, hk2⟩ := h
    by_cases hp : k = p
    · subst hp
      rw [setState, if_pos rfl, NodupKeys, keysOf_cons, List.nodup_cons]
      exact ⟨hk1, hk2⟩
    · rw [setState, if_neg hp, NodupKeys, keysOf_cons, List.nodup_cons]
      refine ⟨?_, ih hk2⟩
      intro hmem
      rcases (mem_keysOf_setState rest p k r).mp hmem with h1 | h1
      · exact hk1 h1
      · exact hp h1

theorem countKey_nil (p : String) : countKey [] p = 0 := rfl

theorem countKey_cons (k : String) (v : StatusRecord) (rest : WatchState) (p : String) :
    countKey ((k, v) :: rest) p = (if k = p then 1 else 0) + countKey rest p := by
  by_cases h : k = p <;> simp [countKey, List.filter_cons, h, Nat.add_comm]

theorem countKey_eq_zero_of_not_mem (st : WatchState) (p : String)
    (h : p ∉ keysOf st) : countKey st p = 0 := by
  induction st with
  | nil => rfl
  | cons e rest ih =>
    obtain ⟨k, v⟩ := e
    rw [keysOf_cons] at h
    have hk : k ≠ p := fun hh => h (by simp [hh])
    have hr : p ∉ keysOf rest := fun hh => h (by simp [hh])
    rw [countKey_cons, if_neg hk, ih hr]

theorem countKey_eq_one_of_lookup (st : WatchState) (p : String) (r : StatusRecord)
    (hnd : NodupKeys st) (hl : lookupState st p = some r) : countKey st p = 1 := by
  induction st with
  | nil => cases hl
  | cons e rest ih =>
    obtain ⟨k, v⟩ := e
    rw [NodupKeys, keysOf_cons, List.nodup_cons] at hnd
    obtain ⟨hk1, hk2⟩ := hnd
    by_cases h : k = p
    · subst h
      have : k ∉ keysOf rest := hk1
      rw [countKey_cons, if_pos rfl, countKey_eq_zero_of_not_mem rest k this]
    · rw [lookupState, if_neg h] at hl
      rw [countKey_cons, if_neg h, ih hk2 hl]

theorem stringAppendCancel {a b s : String} (h : a ++ s = b ++ s) : a = b := by
  cases a with | mk da =>
  cases b with | mk db =>
  cases s with | mk ds =>
  have hd : da ++ ds = db ++ ds := congrArg String.data h
  exact congrArg String.mk (List.append_cancel_right hd)

theorem fetchAttempts_zero (att : Nat → Attempt) (done : Nat) (last_err : Option String) :
    fetchAttempts att done 0 last_err
      = Except.ok ((none, ("ERROR: ") ++ pyShowOS last_err), done) := rfl

theorem fetchAttempts_fault (att : Nat → Attempt) (done n : Nat) (last_err : Option String)
    (e : String) (h : att done = Attempt.fault e) :
    fetchAttempts att done (n + 1) last_err = fetchAttempts att (done + 1) n (some e) := by
  rw [fetchAttempts, h]

theorem fetchAttempts_response_ok (att : Nat → Attempt) (done n : Nat)
    (last_err : Option String) (payload : JVal) (pr : Option Bool × String)
    (h : att done = Attempt.response payload) (hp : parseAttempt payload = Except.ok pr) :
    fetchAttempts att done (n + 1) last_err = Except.ok (pr, done + 1) := by
  rw [fetchAttempts, h]
  show (match parseAttempt payload with
    | Except.error e => Except.error e
    | Except.ok res => Except.ok (res, done + 1)) = _
  rw [hp]

theorem fetchAttempts_response_error (att : Nat → Attempt) (done n : Nat)
    (last_err : Option String) (payload : JVal) (err : String)
    (h : att done = Attempt.response payload) (hp : parseAttempt payload = Except.error err) :
    fetchAttempts att done (n + 1) last_err = Except.error err := by
  rw [fetchAttempts, h]
  show (match parseAttempt payload with
    | Except.error e => Except.error e
    | Except.ok res => Except.ok (res, done + 1)) = _
  rw [hp]

theorem fetchAttempts_count_le (att : Nat → Attempt) :
    ∀ (n done : Nat) (last_err : Option String) (res : (Option Bool × String) × Nat),
      fetchAttempts att done n last_err = Except.ok res → res.2 ≤ done + n := by
  intro n
  induction n with
  | zero =>
    intro done last_err res h
    rw [fetchAttempts_zero] at h
    have heq := Except.ok.inj h
    subst heq
    simp
  | succ n ih =>
    intro done last_err res h
    cases hatt : att done with
    | fault e =>
      rw [fetchAttempts_fault att done n last_err e hatt] at h
      have := ih (done + 1) (some e) res h
      omega
    | response payload =>
      cases hp : parseAttempt payload with
      | error e =>
        rw [fetchAttempts_response_error att done n last_err payload e hatt hp] at h
        cases h
      | ok pr =>
        rw [fetchAttempts_response_ok att done n last_err payload pr hatt hp] at h
        have heq := Except.ok.inj h
        subst heq
        simp

theorem fetch_count_le (att : Nat → Attempt) (res : (Option Bool × String) × Nat)
    (h : fetch_plate_status att = Except.ok res) : res.2 ≤ RETRIES := by
  have := fetchAttempts_count_le att RETRIES 0 none res h
  omega

theorem fetch_all_fault (att : Nat → Attempt) (e : Nat → String)
    (h : ∀ k, k < RETRIES → att k = Attempt.fault (e k)) :
    fetch_plate_status att = Except.ok ((none, ("ERROR: ") ++ e 2), RETRIES) := by
  have h0 := h 0 (by rw [RETRIES]; omega)
  have h1 := h 1 (by rw [RETRIES]; omega)
  have h2 := h 2 (by rw [RETRIES]; omega)
  show fetchAttempts att 0 (2 + 1) none = _
  rw [fetchAttempts_fault att 0 2 none (e 0) h0]
  show fetchAttempts att 1 (1 + 1) (some (e 0)) = _
  rw [fetchAttempts_fault att 1 1 (some (e 0)) (e 1) h1]
  show fetchAttempts att 2 (0 + 1) (some (e 1)) = _
  rw [fetchAttempts_fault att 2 0 (some (e 1)) (e 2) h2]
  rfl

theorem fetch_first_response_ok (att : Nat → Attempt) (payload : JVal)
    (pr : Option Bool × String) (h0 : att 0 = Attempt.response payload)
    (hp : parseAttempt payload = Except.ok pr) :
    fetch_plate_status att = Except.ok (pr, 1) := by
  show fetchAttempts att 0 (2 + 1) none = _
  rw [fetchAttempts_response_ok att 0 2 none payload pr h0 hp]

theorem fetch_first_response_error (att : Nat → Attempt) (payload : JVal)
    (err : String) (h0 : att 0 = Attempt.response payload)
    (hp : parseAttempt payload = Except.error err) :
    fetch_plate_status att = Except.error err := by
  show fetchAttempts att 0 (2 + 1) none = _
  rw [fetchAttempts_response_error att 0 2 none payload err h0 hp]

theorem runLoop_nil (att : String → Nat → Attempt) (t : String) (st : WatchState) :
    runLoop att t st [] = Except.ok ⟨st, [], [], []⟩ := rfl

theorem runLoop_cons (att : String → Nat → Attempt) (t : String) (st : WatchState)
    (plate : String) (rest : List String) :
    runLoop att t st (plate :: rest)
      = (match fetch_plate_status (att plate) with
        | Except.error e => Except.error e
        | Except.ok fr =>
          match runLoop att t (setState st plate ⟨fr.1.1, fr.1.2, t⟩) rest with
          | Except.error e => Except.error e
          | Except.ok r =>
            Except.ok ⟨r.state,
              (if fr.1.1 ≠ prevAvail st plate ∨ some fr.1.2 ≠ prevReason st plate
                then [changeLine plate (prevAvail st plate) (prevReason st plate) fr.1.1 fr.1.2]
                else []) ++ r.changes,
              (if fr.1.1 = some true ∧ prevAvail st plate ≠ some true
                then [plate ++ (" ✅")] else []) ++ r.newly_available,
              Effect.fetch plate :: Effect.sleep :: r.effects⟩) := rfl

theorem runLoop_cons_inv (att : String → Nat → Attempt) (t : String) (st : WatchState)
    (plate : String) (rest : List String) (res : LoopResult)
    (h : runLoop att t st (plate :: rest) = Except.ok res) :
    ∃ fr r, fetch_plate_status (att plate) = Except.ok fr ∧
      runLoop att t (setState st plate ⟨fr.1.1, fr.1.2, t⟩) rest = Except.ok r ∧
      res.state = r.state ∧
      res.newly_available
        = (if fr.1.1 = some true ∧ prevAvail st plate ≠ some true
            then [plate ++ (" ✅")] else []) ++ r.newly_available ∧
      res.effects = Effect.fetch plate :: Effect.sleep :: r.effects := by
  rw [runLoop_cons] at h
  cases hf : fetch_plate_status (att plate) with
  | error e =>
    rw [hf] at h
    cases h
  | ok fr =>
    rw [hf] at h
    have h2 : (match runLoop att t (setState st plate ⟨fr.1.1, fr.1.2, t⟩) rest with
      | Except.error e => Except.error e
      | Except.ok r =>
        Except.ok (⟨r.state,
          (if fr.1.1 ≠ prevAvail st plate ∨ some fr.1.2 ≠ prevReason st plate
            then [changeLine plate (prevAvail st plate) (prevReason st plate) fr.1.1 fr.1.2]
            else []) ++ r.changes,
          (if fr.1.1 = some true ∧ prevAvail st plate ≠ some true
            then [plate ++ (" ✅")] else []) ++ r.newly_available,
          Effect.fetch plate :: Effect.sleep :: r.effects⟩ : LoopResult))
        = Except.ok res := h
    cases hr : runLoop att t (setState st plate ⟨fr.1.1, fr.1.2, t⟩) rest with
    | error e =>
      rw [hr] at h2
      cases h2
    | ok r =>
      rw [hr] at h2
      have heq := Except.ok.inj h2
      subst heq
      exact ⟨fr, r, rfl, hr, rfl, rfl, rfl⟩

theorem runLoop_frame (att : String → Nat → Attempt) (t : String) (q : String) :
    ∀ (plates : List String) (st : WatchState) (r : LoopResult),
      runLoop att t st plates = Except.ok r → q ∉ plates →
      lookupState r.state q = lookupState st q := by
  intro plates
  induction plates with
  | nil =>
    intro st r h _
    rw [runLoop_nil] at h
    have heq := Except.ok.inj h
    subst heq
    rfl
  | cons plate rest ih =>
    intro st r h hq
    obtain ⟨fr, r', hf, hr, hstate, _, _⟩ := runLoop_cons_inv att t st plate rest r h
    have hq1 : q ≠ plate := fun hh => hq (by simp [hh])
    have hq2 : q ∉ rest := fun hh => hq (by simp [hh])
    rw [hstate, ih _ _ hr hq2, lookupState_setState_ne st plate q _ hq1]

theorem runLoop_lookup (att : String → Nat → Attempt) (t : String) (p : String) :
    ∀ (plates : List String) (st : WatchState) (r : LoopResult),
      plates.Nodup → runLoop att t st plates = Except.ok r → p ∈ plates →
      ∃ res, fetch_plate_status (att p) = Except.ok res ∧
        lookupState r.state p = some ⟨res.1.1, res.1.2, t⟩ := by
  intro plates
  induction plates with
  | nil =>
    intro st r _ _ hp
    cases hp
  | cons plate rest ih =>
    intro st r hnd h hp
    obtain ⟨fr, r', hf, hr, hstate, _, _⟩ := runLoop_cons_inv att t st plate rest r h
    obtain ⟨hnd1, hnd2⟩ := List.nodup_cons.mp hnd
    rcases List.mem_cons.mp hp with heq | hmem
    · subst heq
      refine ⟨fr, hf, ?_⟩
      rw [hstate, runLoop_frame att t p rest _ r' hr hnd1,
        lookupState_setState_self]
    · obtain ⟨res, hres, hlook⟩ := ih _ _ hnd2 hr hmem
      exact ⟨res, hres, by rw [hstate, hlook]⟩

theorem runLoop_nodupKeys (att : String → Nat → Attempt) (t : String) :
    ∀ (plates : List String) (st : WatchState) (r : LoopResult),
      NodupKeys st → runLoop att t st plates = Except.ok r → NodupKeys r.state := by
  intro plates
  induction plates with
  | nil =>
    intro st r hst h
    rw [runLoop_nil] at h
    have heq := Except.ok.inj h
    subst heq
    exact hst
  | cons plate rest ih =>
    intro st r hst h
    obtain ⟨fr, r', _, hr, hstate, _, _⟩ := runLoop_cons_inv att t st plate rest r h
    rw [hstate]
    exact ih _ _ (nodupKeys_setState st plate _ hst) hr

theorem runLoop_effects_eq (att : String → Nat → Attempt) (t : String) :
    ∀ (plates : List String) (st : WatchState) (r : LoopResult),
      runLoop att t st plates = Except.ok r → r.effects = loopEffects plates := by
  intro plates
  induction plates with
  | nil =>
    intro st r h
    rw [runLoop_nil] at h
    have heq := Except.ok.inj h
    subst heq
    rfl
  | cons plate rest ih =>
    intro st r h
    obtain ⟨fr, r', _, hr, _, _, heff⟩ := runLoop_cons_inv att t st plate rest r h
    rw [heff, loopEffects, ih _ _ hr]

theorem runLoop_newly_shape (att : String → Nat → Attempt) (t : String) :
    ∀ (plates : List String) (st : WatchState) (r : LoopResult),
      runLoop att t st plates = Except.ok r →
      ∀ x ∈ r.newly_available, ∃ q, q ∈ plates ∧ x = q ++ (" ✅") := by
  intro plates
  induction plates with
  | nil =>
    intro st r h x hx
    rw [runLoop_nil] at h
    have heq := Except.ok.inj h
    subst heq
    cases hx
  | cons plate rest ih =>
    intro st r h x hx
    obtain ⟨fr, r', _, hr, _, hnew, _⟩ := runLoop_cons_inv att t st plate rest r h
    rw [hnew] at hx
    rcases List.mem_append.mp hx with h1 | h1
    · by_cases hc : fr.1.1 = some true ∧ prevAvail st plate ≠ some true
      · rw [if_pos hc] at h1
        rcases List.mem_singleton.mp h1 with rfl
        exact ⟨plate, List.mem_cons_self plate rest, rfl⟩
      · rw [if_neg hc] at h1
        cases h1
    · obtain ⟨q, hq, hxq⟩ := ih _ _ hr x h1
      exact ⟨q, List.mem_cons_of_mem plate hq, hxq⟩

theorem runLoop_mem_newly (att : String → Nat → Attempt) (t : String) (p : String) :
    ∀ (plates : List String) (st : WatchState) (r : LoopResult),
      plates.Nodup → runLoop att t st plates = Except.ok r → p ∈ plates →
      ∀ res, fetch_plate_status (att p) = Except.ok res →
      ((p ++ (" ✅")) ∈ r.newly_available ↔
        (res.1.1 = some true ∧ prevAvail st p ≠ some true)) := by
  intro plates
  induction plates with
  | nil =>
    intro st r _ _ hp
    cases hp
  | cons plate rest ih =>
    intro st r hnd h hp res hres
    obtain ⟨fr, r', hf, hr, _, hnew, _⟩ := runLoop_cons_inv att t st plate rest r h
    obtain ⟨hnd1, hnd2⟩ := List.nodup_cons.mp hnd
    rcases List.mem_cons.mp hp with heq | hmem
    · subst heq
      have hfr : fr = res := by
        rw [hres] at hf
        exact (Except.ok.inj hf).symm
      subst hfr
      have hnot : (p ++ (" ✅")) ∉ r'.newly_available := by
        intro hmem2
        obtain ⟨q, hq, hxq⟩ := runLoop_newly_shape att t rest _ r' hr _ hmem2
        have : p = q := stringAppendCancel hxq
        exact hnd1 (this ▸ hq)
      rw [hnew]
      by_cases hc : fr.1.1 = some true ∧ prevAvail st p ≠ some true
      · simp [hc, hnot]
      · simp [hc, hnot]
    · have hpp : p ≠ plate := fun hh => hnd1 (hh ▸ hmem)
      have hiff := ih _ _ hnd2 hr hmem res hres
      have hpa : prevAvail (setState st plate ⟨fr.1.1, fr.1.2, t⟩) p = prevAvail st p := by
        rw [prevAvail, prevAvail, lookupState_setState_ne st plate p _ hpp]
      rw [hpa] at hiff
      rw [hnew]
      have hne : (p ++ (" ✅"))
          ∉ (if fr.1.1 = some true ∧ prevAvail st plate ≠ some true
              then [plate ++ (" ✅")] else []) := by
        intro hmem2
        by_cases hc : fr.1.1 = some true ∧ prevAvail st plate ≠ some true
        · rw [if_pos hc] at hmem2
          have := List.mem_singleton.mp hmem2
          exact hpp (stringAppendCancel this)
        · rw [if_neg hc] at hmem2
          cases hmem2
      constructor
      · intro hx
        rcases List.mem_append.mp hx with h1 | h1
        · exact absurd h1 hne
        · exact hiff.mp h1
      · intro hx
        exact List.mem_append.mpr (Or.inr (hiff.mpr hx))

theorem load_plates_sorted (lines : List String) :
    List.Sorted plateLE (load_plates lines) :=
  List.sorted_insertionSort _ _

theorem load_plates_nodup (lines : List String) : (load_plates lines).Nodup :=
  ((List.perm_insertionSort _ _).nodup_iff).mpr (List.nodup_dedup _)

theorem mem_load_plates (lines : List String) (p : String) :
    p ∈ load_plates lines
      ↔ (p ≠ "" ∧ ∃ l, l ∈ lines ∧ normalizePlate l = p) := by
  rw [load_plates, (List.perm_insertionSort _ _).mem_iff, List.mem_dedup,
    List.mem_filter, List.mem_map]
  constructor
  · rintro ⟨⟨l, hl, hlp⟩, hp⟩
    exact ⟨of_decide_eq_true hp, l, hl, hlp⟩
  · rintro ⟨hp, l, hl, hlp⟩
    exact ⟨⟨l, hl, hlp⟩, decide_eq_true hp⟩

theorem load_plates_perm (lines lines2 : List String)
    (h : List.Perm lines lines2) : load_plates lines = load_plates lines2 := by
  have hperm : List.Perm (load_plates lines) (load_plates lines2) :=
    (List.perm_insertionSort _ _).trans
      ((((h.map normalizePlate).filter _).dedup).trans
        (List.perm_insertionSort _ _).symm)
  exact List.eq_of_perm_of_sorted hperm (load_plates_sorted lines)
    (load_plates_sorted lines2)

theorem lookupState_perm :
    ∀ {s t : WatchState}, List.Perm s t → NodupKeys s →
      ∀ k, lookupState s k = lookupState t k := by
  intro s t hp
  induction hp with
  | nil =>
    intro _ k
    rfl
  | cons x h ih =>
    intro hnd k
    obtain ⟨kx, vx⟩ := x
    rw [NodupKeys, keysOf_cons, List.nodup_cons] at hnd
    by_cases hk : kx = k
    · simp [lookupState, hk]
    · simp [lookupState, hk, ih hnd.2 k]
  | swap x y l =>
    intro hnd k
    obtain ⟨kx, vx⟩ := x
    obtain ⟨ky, vy⟩ := y
    rw [NodupKeys, keysOf_cons, keysOf_cons, List.nodup_cons, List.nodup_cons] at hnd
    have hxy : ky ≠ kx := fun hh => hnd.1 (by simp [hh])
    by_cases h1 : ky = k
    · subst h1
      simp [lookupState, hxy, Ne.symm hxy]
    · by_cases h2 : kx = k
      · simp [lookupState, h1, h2]
      · simp [lookupState, h1, h2]
  | trans h1 h2 ih1 ih2 =>
    intro hnd k
    have hnd2 : NodupKeys _ := ((h1.map Prod.fst).nodup_iff).mp hnd
    rw [ih1 hnd k, ih2 hnd2 k]

theorem sorted_keyLT (l : WatchState) (hs : List.Sorted keyLE l) (hn : NodupKeys l) :
    List.Sorted keyLT l := by
  have hne : List.Pairwise (fun a b : String × StatusRecord => a.1 ≠ b.1) l :=
    List.pairwise_map.mp hn
  exact (hs.and hne).imp (fun hab => lt_of_le_of_ne hab.1 (data_ne_of_ne hab.2))

theorem nodupKeys_perm {s t : WatchState} (h : List.Perm s t) (hn : NodupKeys s) :
    NodupKeys t := ((h.map Prod.fst).nodup_iff).mp hn

theorem save_state_sorted_eq (s1 s2 : WatchState) (h1 : NodupKeys s1)
    (hp : List.Perm s1 s2) :
    List.insertionSort keyLE s1 = List.insertionSort keyLE s2 := by
  have p1 := List.perm_insertionSort keyLE s1
  have p2 := List.perm_insertionSort keyLE s2
  have hperm := p1.trans (hp.trans p2.symm)
  have h2 : NodupKeys s2 := nodupKeys_perm hp h1
  exact List.eq_of_perm_of_sorted hperm
    (sorted_keyLT _ (List.sorted_insertionSort keyLE s1) (nodupKeys_perm p1.symm h1))
    (sorted_keyLT _ (List.sorted_insertionSort keyLE s2) (nodupKeys_perm p2.symm h2))

theorem savedStates_append (a b : List Effect) :
    savedStates (a ++ b) = savedStates a ++ savedStates b :=
  List.filterMap_append a b _

theorem savedStates_loopEffects (plates : List String) :
    savedStates (loopEffects plates) = [] := by
  induction plates with
  | nil => rfl
  | cons p rest ih =>
    rw [loopEffects]
    simpa [savedStates, List.filterMap_cons] using ih

theorem savedStates_send_discord (url : String) (post : Option String) (msg : String) :
    savedStates (send_discord url post msg) = [] := by
  rw [send_discord.eq_def]
  by_cases h : url = ""
  · simp [h, savedStates, List.filterMap_cons]
  · cases post <;> simp [h, savedStates, List.filterMap_cons]

theorem savedStates_notifyTrace (url : String) (post : Option String)
    (newly : List String) : savedStates (notifyTrace url post newly) = [] := by
  rw [notifyTrace]
  by_cases h : newly.isEmpty
  · simp [h, savedStates]
  · rw [if_neg h, savedStates_append, savedStates_send_discord]
    simp [savedStates, List.filterMap_cons]

theorem loopEffects_no_save_no_post (plates : List String) :
    ∀ e ∈ loopEffects plates, isSaveEffect e = false ∧ isPostEffect e = false := by
  induction plates with
  | nil =>
    intro e he
    cases he
  | cons p rest ih =>
    intro e he
    rw [loopEffects] at he
    rcases he with _ | ⟨_, h2⟩
    · exact ⟨rfl, rfl⟩
    · rcases h2 with _ | ⟨_, h3⟩
      · exact ⟨rfl, rfl⟩
      · exact ih e h3

theorem mainRun_eq_of_ok (att : String → Nat → Attempt) (lines : List String)
    (stateFile : FileRead) (url : String) (post : Option String) (t : String)
    (st0 : WatchState) (r : LoopResult)
    (hload : load_state stateFile = Except.ok (LoadedState.mapping st0))
    (hok : runLoop att t st0 (load_plates lines) = Except.ok r) :
    mainRun att (some lines) stateFile url post t
      = Except.ok (loopEffects (load_plates lines) ++ Effect.saveState r.state ::
          (notifyTrace url post r.newly_available
            ++ [Effect.printLine (summaryLine t (load_plates lines).length
                  r.newly_available.length)])) := by
  rw [mainRun, hload]
  show (match runLoop att t st0 (load_plates lines) with
    | Except.error e => Except.error e
    | Except.ok r =>
      Except.ok (r.effects ++ Effect.saveState r.state ::
        (notifyTrace url post r.newly_available
          ++ [Effect.printLine (summaryLine t (load_plates lines).length
                r.newly_available.length)]))) = _
  rw [hok]
  show Except.ok (r.effects ++ Effect.saveState r.state ::
      (notifyTrace url post r.newly_available
        ++ [Effect.printLine (summaryLine t (load_plates lines).length
              r.newly_available.length)])) = _
  rw [runLoop_effects_eq att t (load_plates lines) _ r hok]

theorem mainRun_nonMapping_abort (att : String → Nat → Attempt)
    (lines : List String) (url : String) (post : Option String) (t : String)
    (v : JVal) (hv : isDict v = false) (plate : String) (rest : List String)
    (res : (Option Bool × String) × Nat)
    (hplates : load_plates lines = plate :: rest)
    (hfetch : fetch_plate_status (att plate) = Except.ok res) :
    mainRun att (some lines) (FileRead.content (RawContent.nonMapping v hv))
      url post t = Except.error ("AttributeError") := by
  rw [mainRun]
  show (match load_plates lines with
    | [] =>
      Except.ok (Effect.saveRaw v ::
        (notifyTrace url post [] ++ [Effect.printLine (summaryLine t 0 0)]))
    | plate :: _ =>
      match fetch_plate_status (att plate) with
      | Except.error e => Except.error e
      | Except.ok _ => Except.error ("AttributeError")) = _
  rw [hplates]
  show (match fetch_plate_status (att plate) with
    | Except.error e => Except.error e
    | Except.ok _ => Except.error ("AttributeError")) = _
  rw [hfetch]

theorem savedStates_cons_save (s : WatchState) (l : List Effect) :
    savedStates (Effect.saveState s :: l) = s :: savedStates l := by
  simp [savedStates, List.filterMap_cons]

theorem savedStates_print (s : String) :
    savedStates [Effect.printLine s] = [] := rfl

/-- Oracle used by concrete runs: every attempt of every plate answers
with a well-shaped payload whose Available field is the boolean true. -/
def attAllTrue : String → Nat → Attempt := fun _ _ =>
  Attempt.response (JVal.obj [(("Data"),
    JVal.obj [(("Available"), JVal.boolV true), (("Reason"), JVal.strV (""))])])

/-- The loop result of running attAllTrue over the plate file aa with an
empty prior state. -/
def rcOne : LoopResult :=
  ⟨[(("AA"), ⟨some true, (""), ("t")⟩)],
   [("AA: None/None → True/")],
   [("AA ✅")],
   [Effect.fetch ("AA"), Effect.sleep]⟩

/-- C1: a combination of the working set is appended to newly_available
(the notification events of the run) iff the freshly fetched availability
is the boolean true and the availability previously stored for it, read as
unknown when no record exists, is not true (lines 110-111). -/
theorem notification_edge_trigger (att : String → Nat → Attempt)
    (stateFile : FileRead) (lines : List String) (t p : String)
    (st0 : WatchState) (r : LoopResult) (res : (Option Bool × String) × Nat)
    (hload : load_state stateFile = Except.ok (LoadedState.mapping st0))
    (hok : runLoop att t st0 (load_plates lines) = Except.ok r)
    (hp : p ∈ load_plates lines)
    (hfetch : fetch_plate_status (att p) = Except.ok res) :
    (p ++ (" ✅")) ∈ r.newly_available
      ↔ (res.1.1 = some true ∧ prevAvail st0 p ≠ some true) :=
  runLoop_mem_newly att t p (load_plates lines) _ r (load_plates_nodup lines)
    hok hp res hfetch

/-- Witness for C1: a first-ever observation of true fires. -/
theorem notification_edge_trigger_witness :
    ("AA" ++ (" ✅")) ∈ rcOne.newly_available :=
  (notification_edge_trigger attAllTrue FileRead.notFound [("aa")] ("t") ("AA")
    [] rcOne ((some true, ("")), 1) rfl rfl (by decide) rfl).mpr (by decide)

/-- Oracle whose every attempt is a transport fault. -/
def attFaultB : Nat → Attempt := fun _ => Attempt.fault ("boom")

/-- Oracle whose first attempt is an empty-object payload: well shaped but
with no Available field. -/
def attParseMiss : Nat → Attempt := fun _ => Attempt.response (JVal.obj [])

/-- Oracle whose first attempt decodes to a truthy non-object JSON value
(for instance a non-empty array). -/
def attBadShape : Nat → Attempt := fun _ => Attempt.response (JVal.other true)

/-- C2 counterexample: a response body that decodes as JSON (so no
ValueError fires) and lacks a boolean availability field, but is a truthy
non-object.  The claim requires the result (unknown, PARSE_ERROR) after
exactly one attempt; the code instead hits payload.get on a non-dict and
raises an uncaught AttributeError. -/
theorem fetch_parse_counterexample :
    fetch_plate_status attBadShape = Except.error ("AttributeError")
    ∧ fetch_plate_status attBadShape ≠ Except.ok ((none, ("PARSE_ERROR")), 1) :=
  ⟨rfl, by decide⟩

/-- C2 amended: at most 3 attempts are made; a transport fault on every
attempt gives exactly 3 attempts and (unknown, ERROR of the last failure);
an attempt whose payload parses with an object-or-falsy payload and Data
returns after that one attempt with the parse outcome - in particular
(unknown, PARSE_ERROR) when the Available field is missing or non-boolean;
but when the parse step raises (truthy non-object payload or Data), the
exception escapes fetch_plate_status after that single attempt instead of
producing PARSE_ERROR. -/
theorem fetch_retry_taxonomy (att : Nat → Attempt) :
    (∀ res, fetch_plate_status att = Except.ok res → res.2 ≤ RETRIES)
    ∧ (∀ e : Nat → String, (∀ k, k < RETRIES → att k = Attempt.fault (e k)) →
        fetch_plate_status att = Except.ok ((none, ("ERROR: ") ++ e 2), RETRIES))
    ∧ (∀ payload pr, att 0 = Attempt.response payload →
        parseAttempt payload = Except.ok pr →
        fetch_plate_status att = Except.ok (pr, 1))
    ∧ (∀ payload err, att 0 = Attempt.response payload →
        parseAttempt payload = Except.error err →
        fetch_plate_status att = Except.error err) :=
  ⟨fun res h => fetch_count_le att res h,
   fun e h => fetch_all_fault att e h,
   fun payload pr h0 hp => fetch_first_response_ok att payload pr h0 hp,
   fun payload err h0 hp => fetch_first_response_error att payload err h0 hp⟩

/-- Witness for C2: all-fault runs exhaust the 3 attempts; a well-shaped
payload without Available yields PARSE_ERROR on the first attempt. -/
theorem fetch_retry_taxonomy_witness :
    fetch_plate_status attFaultB
      = Except.ok ((none, ("ERROR: ") ++ ("boom")), RETRIES)
    ∧ fetch_plate_status attParseMiss = Except.ok ((none, ("PARSE_ERROR")), 1) :=
  ⟨(fetch_retry_taxonomy attFaultB).2.1 (fun _ => ("boom")) (fun _ _ => rfl),
   (fetch_retry_taxonomy attParseMiss).2.2.1 (JVal.obj [])
     (none, ("PARSE_ERROR")) rfl rfl⟩

/-- C6 counterexample: two corrupt artifacts the claim mishandles.  A
state file whose bytes are not valid UTF-8 makes json.load raise
UnicodeDecodeError, which neither except clause of lines 40-43 catches,
so load_state itself raises instead of returning an empty mapping.  A
state file holding valid JSON that is not a mapping (for example a
non-empty array) is returned as-is, not as the empty mapping, and the run
then aborts at line 101 where state.get does not exist on the non-dict -
with a perfectly readable plates file. -/
theorem state_artifact_counterexample :
    load_state (FileRead.content RawContent.undecodableBytes)
      = Except.error ("UnicodeDecodeError")
    ∧ load_state (FileRead.content (RawContent.nonMapping (JVal.other true) rfl))
        ≠ Except.ok (LoadedState.mapping [])
    ∧ mainRun attAllTrue (some [("aa")])
        (FileRead.content (RawContent.nonMapping (JVal.other true) rfl))
        ("") none ("t")
      = Except.error ("AttributeError") := by
  refine ⟨rfl, ?_, rfl⟩
  intro h
  exact LoadedState.noConfusion (Except.ok.inj h)

/-- C6 amended: load_state returns the stored mapping when the artifact
decodes to the expected mapping shape, and returns the empty mapping -
raising nothing - when the file is absent or its text fails to decode as
JSON (the two exceptions caught at lines 40-43); but an artifact whose
bytes are not valid UTF-8 raises an uncaught UnicodeDecodeError out of
load_state, and an artifact decoding to valid JSON that is not a mapping
is returned as-is rather than as an empty mapping and aborts the run at
the first processed combination; only the absent and JSON-undecodable
artifacts are equivalent to an empty prior state. -/
theorem load_state_taxonomy (raw : String) (m : WatchState) (v : JVal)
    (hv : isDict v = false) :
    load_state FileRead.notFound = Except.ok (LoadedState.mapping [])
    ∧ load_state (FileRead.content (RawContent.malformed raw))
        = Except.ok (LoadedState.mapping [])
    ∧ load_state (FileRead.content (RawContent.wellFormed m))
        = Except.ok (LoadedState.mapping m)
    ∧ load_state (FileRead.content RawContent.undecodableBytes)
        = Except.error ("UnicodeDecodeError")
    ∧ load_state (FileRead.content (RawContent.nonMapping v hv))
        = Except.ok (LoadedState.nonMapping v hv)
    ∧ (∀ (att : String → Nat → Attempt) (url : String) (post : Option String)
        (t : String) (lines : List String) (plate : String)
        (rest : List String) (res : (Option Bool × String) × Nat),
        load_plates lines = plate :: rest →
        fetch_plate_status (att plate) = Except.ok res →
        mainRun att (some lines) (FileRead.content (RawContent.nonMapping v hv))
          url post t = Except.error ("AttributeError")) :=
  ⟨rfl, rfl, rfl, rfl, rfl,
   fun att url post t lines plate rest res hplates hfetch =>
     mainRun_nonMapping_abort att lines url post t v hv plate rest res
       hplates hfetch⟩

/-- Witness for C6 amended: the undecodable-bytes artifact raises, and a
truthy non-object artifact aborts a concrete one-plate run. -/
theorem load_state_taxonomy_witness :
    load_state (FileRead.content RawContent.undecodableBytes)
      = Except.error ("UnicodeDecodeError")
    ∧ mainRun attAllTrue (some [("aa")])
        (FileRead.content (RawContent.nonMapping (JVal.other true) rfl))
        ("") none ("t")
      = Except.error ("AttributeError") :=
  ⟨(load_state_taxonomy ("x") [] (JVal.other true) rfl).2.2.2.1,
   (load_state_taxonomy ("x") [] (JVal.other true) rfl).2.2.2.2.2 attAllTrue
     ("") none ("t") [("aa")] ("AA") [] ((some true, ("")), 1) rfl rfl⟩

/-- C7: loading the saved artifact succeeds and yields the key-sorted
mapping; that mapping binds every key to the same record as the original
(same keys, same field values); and the saved artifact is identical for
any two insertion orders of the same entries, because keys are serialized
sorted. -/
theorem save_load_roundtrip (s1 s2 : WatchState) (hnk : NodupKeys s1)
    (hp : List.Perm s1 s2) :
    load_state (save_state s1)
      = Except.ok (LoadedState.mapping (List.insertionSort keyLE s1))
    ∧ (∀ k, lookupState (List.insertionSort keyLE s1) k = lookupState s1 k)
    ∧ load_state (save_state s1) = load_state (save_state s2) := by
  refine ⟨rfl, ?_, ?_⟩
  · intro k
    exact lookupState_perm (List.perm_insertionSort keyLE s1)
      (nodupKeys_perm (List.perm_insertionSort keyLE s1).symm hnk) k
  · show Except.ok (LoadedState.mapping (List.insertionSort keyLE s1))
      = Except.ok (LoadedState.mapping (List.insertionSort keyLE s2))
    rw [save_state_sorted_eq s1 s2 hnk hp]

/-- A sample record marked available. -/
def recA : StatusRecord := ⟨some true, (""), ("t1")⟩

/-- A sample record for a failed fetch. -/
def recB : StatusRecord := ⟨none, ("ERROR: x"), ("t2")⟩

/-- Witness for C7 on a two-entry state in both insertion orders. -/
theorem save_load_roundtrip_witness :
    lookupState (List.insertionSort keyLE [(("B"), recB), (("A"), recA)]) ("A")
      = lookupState [(("B"), recB), (("A"), recA)] ("A")
    ∧ load_state (save_state [(("B"), recB), (("A"), recA)])
      = load_state (save_state [(("A"), recA), (("B"), recB)]) :=
  ⟨(save_load_roundtrip [(("B"), recB), (("A"), recA)]
      [(("A"), recA), (("B"), recB)] (by decide) (by decide)).2.1 ("A"),
   (save_load_roundtrip [(("B"), recB), (("A"), recA)]
      [(("A"), recA), (("B"), recB)] (by decide) (by decide)).2.2⟩

/-- C3: after a completed run every combination of the working set is
bound to exactly one record, that record is the latest observation paired
with the run timestamp (written unconditionally at line 105), and the
sorted saved artifact also binds it exactly once; when the fetch failed
the recorded availability is unknown with the diagnostic reason, as the
instance res.1.1 = none of the equation shows. -/
theorem state_total_after_run (att : String → Nat → Attempt)
    (stateFile : FileRead) (lines : List String) (t p : String)
    (st0 : WatchState) (r : LoopResult) (res : (Option Bool × String) × Nat)
    (hload : load_state stateFile = Except.ok (LoadedState.mapping st0))
    (hnk : NodupKeys st0)
    (hok : runLoop att t st0 (load_plates lines) = Except.ok r)
    (hp : p ∈ load_plates lines)
    (hfetch : fetch_plate_status (att p) = Except.ok res) :
    countKey r.state p = 1
    ∧ lookupState r.state p = some ⟨res.1.1, res.1.2, t⟩
    ∧ load_state (save_state r.state)
        = Except.ok (LoadedState.mapping (List.insertionSort keyLE r.state))
    ∧ countKey (List.insertionSort keyLE r.state) p = 1 := by
  obtain ⟨res2, hres2, hlook⟩ := runLoop_lookup att t p (load_plates lines) _ r
    (load_plates_nodup lines) hok hp
  have heq : res2 = res := by
    rw [hfetch] at hres2
    exact (Except.ok.inj hres2).symm
  subst heq
  have hnk2 : NodupKeys r.state := runLoop_nodupKeys att t (load_plates lines) _ r hnk hok
  have h1 : countKey r.state p = 1 := countKey_eq_one_of_lookup r.state p _ hnk2 hlook
  refine ⟨h1, hlook, rfl, ?_⟩
  have hlen := ((List.perm_insertionSort keyLE r.state).filter
    (fun e => decide (e.1 = p))).length_eq
  rw [countKey, hlen]
  exact h1

/-- Witness for C3 on a concrete completed run. -/
theorem state_total_after_run_witness :
    countKey rcOne.state ("AA") = 1
    ∧ lookupState rcOne.state ("AA") = some ⟨some true, (""), ("t")⟩
    ∧ load_state (save_state rcOne.state)
        = Except.ok (LoadedState.mapping (List.insertionSort keyLE rcOne.state))
    ∧ countKey (List.insertionSort keyLE rcOne.state) ("AA") = 1 :=
  state_total_after_run attAllTrue FileRead.notFound [("aa")] ("t") ("AA") []
    rcOne ((some true, ("")), 1) rfl (by decide) rfl (by decide) rfl

/-- C4 counterexample: the claim says normalization removes all internal
whitespace, so the line with an internal tab would have to normalize to
the combination AB with the tab gone; the code only deletes the space
character U+0020, so the tab - stripped at the edges by strip() and
recognized as whitespace there - survives inside the result. -/
theorem load_plates_counterexample :
    load_plates [("a\tb")] = [("A\tB")]
    ∧ ("A\tB") ≠ ("AB")
    ∧ isPySpace '\t' = true := by
  decide

/-- C4 amended: normalization strips leading and trailing whitespace,
deletes internal space characters U+0020 (other internal whitespace such
as tabs is preserved), upper-cases, discards empty results, deduplicates,
and returns the canonical combinations sorted ascending; the output is
order-independent and whitespace or case variants of one combination
collapse to a single entry. -/
theorem load_plates_normalization (lines lines2 : List String)
    (hperm : List.Perm lines lines2) :
    List.Sorted plateLE (load_plates lines)
    ∧ (load_plates lines).Nodup
    ∧ (∀ p, p ∈ load_plates lines
        ↔ (p ≠ "" ∧ ∃ l, l ∈ lines ∧ normalizePlate l = p))
    ∧ load_plates lines = load_plates lines2
    ∧ load_plates [(" abc123 "), ("ABC123")] = [("ABC123")] :=
  ⟨load_plates_sorted lines, load_plates_nodup lines,
    fun p => mem_load_plates lines p,
    load_plates_perm lines lines2 hperm, by decide⟩

/-- Witness for C4: two orders of the same input lines give one output. -/
theorem load_plates_normalization_witness :
    load_plates [("b"), ("a")] = load_plates [("a"), ("b")] :=
  (load_plates_normalization [("b"), ("a")] [("a"), ("b")] (by decide)).2.2.2.1

/-- C5: a completed run emits, in order, only the per-plate fetch effects
and sleeps, then the single state write of the fully updated mapping, then
the notification effects, then the summary line; the trace holds exactly
one state write; no webhook post precedes it; and replacing the webhook
configuration or the delivery outcome changes neither the written state
nor the summary, as the trace equation for any second configuration
shows. -/
theorem persist_once_before_notify (att : String → Nat → Attempt)
    (stateFile : FileRead) (lines : List String) (url url2 : String)
    (post post2 : Option String) (t : String) (st0 : WatchState) (r : LoopResult)
    (hload : load_state stateFile = Except.ok (LoadedState.mapping st0))
    (hok : runLoop att t st0 (load_plates lines) = Except.ok r) :
    mainRun att (some lines) stateFile url post t
      = Except.ok (loopEffects (load_plates lines) ++ Effect.saveState r.state ::
          (notifyTrace url post r.newly_available
            ++ [Effect.printLine (summaryLine t (load_plates lines).length
                  r.newly_available.length)]))
    ∧ mainRun att (some lines) stateFile url2 post2 t
      = Except.ok (loopEffects (load_plates lines) ++ Effect.saveState r.state ::
          (notifyTrace url2 post2 r.newly_available
            ++ [Effect.printLine (summaryLine t (load_plates lines).length
                  r.newly_available.length)]))
    ∧ savedStates (loopEffects (load_plates lines) ++ Effect.saveState r.state ::
          (notifyTrace url post r.newly_available
            ++ [Effect.printLine (summaryLine t (load_plates lines).length
                  r.newly_available.length)])) = [r.state]
    ∧ (∀ e ∈ loopEffects (load_plates lines),
        isSaveEffect e = false ∧ isPostEffect e = false) := by
  refine ⟨mainRun_eq_of_ok att lines stateFile url post t st0 r hload hok,
    mainRun_eq_of_ok att lines stateFile url2 post2 t st0 r hload hok, ?_,
    loopEffects_no_save_no_post (load_plates lines)⟩
  rw [savedStates_append, savedStates_loopEffects, List.nil_append,
    savedStates_cons_save, savedStates_append, savedStates_notifyTrace,
    List.nil_append, savedStates_print]

/-- Witness for C5 on a concrete completed run. -/
theorem persist_once_before_notify_witness :
    savedStates (loopEffects (load_plates [("aa")])
        ++ Effect.saveState rcOne.state ::
          (notifyTrace ("") none rcOne.newly_available
            ++ [Effect.printLine (summaryLine ("t") (load_plates [("aa")]).length
                  rcOne.newly_available.length)])) = [rcOne.state] :=
  (persist_once_before_notify attAllTrue FileRead.notFound [("aa")] ("")
    ("hook") none (some ("boom2")) ("t") [] rcOne rfl rfl).2.2.1

/-- C9: a run never deletes or modifies the record of a combination it did
not process: every key outside the working set reads identically from the
final mapping and from the re-loaded saved artifact as it did from the
loaded prior state. -/
theorem untouched_records_frame (att : String → Nat → Attempt)
    (stateFile : FileRead) (lines : List String) (t q : String)
    (st0 : WatchState) (r : LoopResult)
    (hload : load_state stateFile = Except.ok (LoadedState.mapping st0))
    (hok : runLoop att t st0 (load_plates lines) = Except.ok r)
    (hq : q ∉ load_plates lines)
    (hnk : NodupKeys st0) :
    lookupState r.state q = lookupState st0 q
    ∧ load_state (save_state r.state)
        = Except.ok (LoadedState.mapping (List.insertionSort keyLE r.state))
    ∧ lookupState (List.insertionSort keyLE r.state) q = lookupState st0 q := by
  have h1 := runLoop_frame att t q (load_plates lines) _ r hok hq
  refine ⟨h1, rfl, ?_⟩
  have hnk2 : NodupKeys r.state :=
    runLoop_nodupKeys att t (load_plates lines) _ r hnk hok
  rw [← lookupState_perm (List.perm_insertionSort keyLE r.state).symm hnk2 q]
  exact h1

/-- Witness for C9: an unprocessed key stays absent across the run. -/
theorem untouched_records_frame_witness :
    lookupState rcOne.state ("ZZ") = lookupState [] ("ZZ")
    ∧ load_state (save_state rcOne.state)
        = Except.ok (LoadedState.mapping (List.insertionSort keyLE rcOne.state))
    ∧ lookupState (List.insertionSort keyLE rcOne.state) ("ZZ")
      = lookupState [] ("ZZ") :=
  untouched_records_frame attAllTrue FileRead.notFound [("aa")] ("t") ("ZZ")
    [] rcOne rfl rfl (by decide) (by decide)

/-- The loop result of running attAllTrue over the plate file with lines
aa and bb and an empty prior state. -/
def rcTwo : LoopResult :=
  ⟨[(("AA"), ⟨some true, (""), ("t")⟩), (("BB"), ⟨some true, (""), ("t")⟩)],
   [("AA: None/None → True/"), ("BB: None/None → True/")],
   [("AA ✅"), ("BB ✅")],
   [Effect.fetch ("AA"), Effect.sleep, Effect.fetch ("BB"), Effect.sleep]⟩

/-- C10: the run timestamp is taken once, before the loop (line 97), and
threaded unchanged, so the records of any two processed combinations carry
the identical last_seen string equal to that timestamp, however long the
fetches take. -/
theorem run_timestamp_uniform (att : String → Nat → Attempt)
    (stateFile : FileRead) (lines : List String) (t p q : String)
    (st0 : WatchState) (r : LoopResult)
    (hload : load_state stateFile = Except.ok (LoadedState.mapping st0))
    (hok : runLoop att t st0 (load_plates lines) = Except.ok r)
    (hp : p ∈ load_plates lines) (hq : q ∈ load_plates lines) :
    (lookupState r.state p).map StatusRecord.last_seen = some t
    ∧ (lookupState r.state q).map StatusRecord.last_seen = some t := by
  obtain ⟨resp, _, hlp⟩ := runLoop_lookup att t p (load_plates lines) _ r
    (load_plates_nodup lines) hok hp
  obtain ⟨resq, _, hlq⟩ := runLoop_lookup att t q (load_plates lines) _ r
    (load_plates_nodup lines) hok hq
  rw [hlp, hlq]
  exact ⟨rfl, rfl⟩

/-- Witness for C10 on a two-plate run. -/
theorem run_timestamp_uniform_witness :
    (lookupState rcTwo.state ("AA")).map StatusRecord.last_seen = some ("t")
    ∧ (lookupState rcTwo.state ("BB")).map StatusRecord.last_seen = some ("t") :=
  run_timestamp_uniform attAllTrue FileRead.notFound [("aa"), ("bb")] ("t")
    ("AA") ("BB") [] rcTwo rfl rfl (by decide) (by decide)

end KiwiPlates
